import Mathlib

/-!
Shallow embedding of the Tibetan Wisdom API core (`main.py`): the record
model, the query engine (`get_wisdom`, `search_wisdom`, `get_random_wisdom`,
`get_wisdom_by_id`), the data-load block, the rate-limit configuration and
the 429 handler, together with theorems checking the specification's claims.
-/

/-- One wisdom record, mirroring the pydantic `Wisdom` model. -/
structure Wisdom where
  id : Int
  text : String
  author : String
  source : String
  category : String
  language : String
deriving DecidableEq, Repr

/-- Paginated list response, mirroring `WisdomListResponse`. -/
structure WisdomListResponse where
  wisdom : List Wisdom
  total : Nat
  page : Nat
  per_page : Nat
deriving DecidableEq, Repr

/-- An `HTTPException(status_code, detail)` as raised by the handlers. -/
structure HttpError where
  status_code : Nat
  detail : String
deriving DecidableEq, Repr

/-- Python's `str.lower()`: character-wise lowercasing. -/
def lower (s : String) : String := ⟨s.data.map Char.toLower⟩

/-- Python's `needle in hay` substring test on strings. -/
def strIn (needle hay : String) : Bool :=
  hay.data.tails.any (fun t => needle.data.isPrefixOf t)

/-- `if category: filtered = [w for w in filtered if w["category"].lower() == category.lower()]`.
A `None` or empty-string parameter is falsy in Python, so no filter is applied then. -/
def applyCategory (category : Option String) (l : List Wisdom) : List Wisdom :=
  match category with
  | none => l
  | some c => if c.isEmpty then l else l.filter (fun w => lower w.category == lower c)

/-- `if author: filtered = [w for w in filtered if author.lower() in w["author"].lower()]`. -/
def applyAuthor (author : Option String) (l : List Wisdom) : List Wisdom :=
  match author with
  | none => l
  | some a => if a.isEmpty then l else l.filter (fun w => strIn (lower a) (lower w.author))

/-- `if source: filtered = [w for w in filtered if source.lower() in w["source"].lower()]`. -/
def applySource (source : Option String) (l : List Wisdom) : List Wisdom :=
  match source with
  | none => l
  | some s => if s.isEmpty then l else l.filter (fun w => strIn (lower s) (lower w.source))

/-- The `GET /wisdom` handler `get_wisdom`: sequential filtering by category,
author, source, then the Python slice `filtered[start_idx:start_idx + per_page]`
with `start_idx = (page - 1) * per_page`. -/
def get_wisdom (store : List Wisdom) (page per_page : Nat)
    (category author source : Option String) : WisdomListResponse :=
  let filtered := applySource source (applyAuthor author (applyCategory category store))
  let start_idx := (page - 1) * per_page
  { wisdom := (filtered.drop start_idx).take per_page
    total := filtered.length
    page := page
    per_page := per_page }

/-- The search predicate of `search_wisdom`: the lowercased query is a
substring of the lowercased text, author or source. -/
def matchesSearch (q : String) (w : Wisdom) : Bool :=
  strIn (lower q) (lower w.text) || strIn (lower q) (lower w.author)
    || strIn (lower q) (lower w.source)

/-- The `GET /wisdom/search` handler `search_wisdom`. -/
def search_wisdom (store : List Wisdom) (q : String) (page per_page : Nat) :
    WisdomListResponse :=
  let filtered := store.filter (matchesSearch q)
  let start_idx := (page - 1) * per_page
  { wisdom := (filtered.drop start_idx).take per_page
    total := filtered.length
    page := page
    per_page := per_page }

/-- The `GET /wisdom/random` handler `get_random_wisdom`: 404 on an empty
store, otherwise `random.choice(wisdom_data)`, which draws a uniformly random
index into the list; `pick` is the drawn entropy value. -/
def get_random_wisdom (store : List Wisdom) (pick : Nat) : Except HttpError Wisdom :=
  match store with
  | [] => .error ⟨404, "No wisdom available"⟩
  | w :: ws => .ok ((w :: ws).get ⟨pick % (ws.length + 1), Nat.mod_lt _ (Nat.succ_pos _)⟩)

/-- The `GET /wisdom/{wisdom_id}` handler `get_wisdom_by_id`:
`next((w for w in wisdom_data if w["id"] == wisdom_id), None)`, 404 when none. -/
def get_wisdom_by_id (store : List Wisdom) (wisdom_id : Int) : Except HttpError Wisdom :=
  match store.find? (fun w => w.id == wisdom_id) with
  | none => .error ⟨404, "Wisdom not found"⟩
  | some w => .ok w

/-- The possible states of the external data source file. -/
inductive SourceFile where
  | missing
  | unparsable
  | parsed (quotes : List Wisdom)

/-- The uncaught error raised by `json.load` on malformed input. -/
inductive LoadError where
  | jsonDecodeError
deriving DecidableEq, Repr

/-- The module-level load block: `try: open(...); json.load(f) ...
except FileNotFoundError: wisdom_data = []`. Only `FileNotFoundError` is
caught; a present but malformed file raises `json.JSONDecodeError`, which
propagates out of the block. -/
def loadWisdomData : SourceFile → Except LoadError (List Wisdom)
  | .missing => .ok []
  | .unparsable => .error .jsonDecodeError
  | .parsed quotes => .ok quotes

/-- `categories = list(set(wisdom["category"] for wisdom in wisdom_data))`. -/
def categories (l : List Wisdom) : List String := (l.map Wisdom.category).dedup

/-- `authors = list(set(wisdom["author"] for wisdom in wisdom_data))`. -/
def authors (l : List Wisdom) : List String := (l.map Wisdom.author).dedup

/-- `sources = list(set(wisdom["source"] for wisdom in wisdom_data))`. -/
def sources (l : List Wisdom) : List String := (l.map Wisdom.source).dedup

/-- The JSON body produced by `rate_limit_handler`; the structure's fields
are exactly the keys of the dict literal in the handler. -/
structure RateLimitBody where
  error : String
  message : String
  retry_after : String
deriving DecidableEq, Repr

/-- The full 429 response produced by `rate_limit_handler`: status code,
JSON body, and the `Retry-After` header value. -/
structure RateLimitResponse where
  status_code : Nat
  body : RateLimitBody
  retryAfterHeader : String
deriving DecidableEq, Repr

/-- The `rate_limit_handler` exception handler: status 429, dict body with
keys `error`, `message` (interpolating `exc.detail`), `retry_after`, and the
header `Retry-After: 60`. -/
def rate_limit_handler (detail : String) : RateLimitResponse :=
  { status_code := 429
    body :=
      { error := "Rate limit exceeded"
        message := "Too many requests. Limit: " ++ detail
        retry_after := "Please wait before making more requests" }
    retryAfterHeader := "60" }

/-- The endpoint classes sharing one rate-limit configuration. -/
inductive EndpointClass where
  | random
  | listing
  | search
  | metadata
  | health
  | landing
deriving DecidableEq, Repr

/-- Requests per 60-second window per endpoint class, read off the
`@limiter.limit("N/minute")` decorators in `main.py`. -/
def endpointLimit : EndpointClass → Nat
  | .random => 30
  | .listing => 20
  | .search => 15
  | .metadata => 10
  | .health => 5
  | .landing => 30

/-- Rate-limiter state for one (client key, endpoint class) pair. -/
structure LimiterState where
  windowStart : Nat
  count : Nat
deriving DecidableEq, Repr

/-- Modelled from the spec: the fixed-window step of the rate limiter
(implemented by the external `slowapi`/`limits` libraries behind
`limiter.limit`, not by code in this repository). If no window exists or 60
seconds have elapsed since the window's start, reset the counter and start a
new window at the current time; then increment and admit exactly when the
post-increment count is at most the limit `N`. -/
def limitStep (N : Nat) (st : Option LimiterState) (now : Nat) : Bool × LimiterState :=
  match st with
  | none => (decide (1 ≤ N), ⟨now, 1⟩)
  | some s =>
    if s.windowStart + 60 ≤ now then (decide (1 ≤ N), ⟨now, 1⟩)
    else (decide (s.count + 1 ≤ N), ⟨s.windowStart, s.count + 1⟩)

/-- Modelled from the spec: a run of requests at the given times for a single
client key and endpoint class, returning the admit/reject decision for each
request together with the final limiter state. -/
def limiterRun (N : Nat) (st : Option LimiterState) : List Nat → List Bool × Option LimiterState
  | [] => ([], st)
  | t :: ts =>
    let step := limitStep N st t
    let rest := limiterRun N (some step.2) ts
    (step.1 :: rest.1, rest.2)

/-- The list filters as the spec states them: category is exact
case-insensitive equality, author and source are case-insensitive substring,
all optional and combined with logical AND. -/
def listMatchesSpec (category author source : Option String) (w : Wisdom) : Bool :=
  (match category with
    | none => true
    | some c => lower w.category == lower c) &&
  (match author with
    | none => true
    | some a => strIn (lower a) (lower w.author)) &&
  (match source with
    | none => true
    | some s => strIn (lower s) (lower w.source))

/-- Concrete record used by witnesses. -/
def w1 : Wisdom :=
  ⟨1, "Be kind whenever possible", "Dalai Lama", "Teachings", "wisdom", "en"⟩

/-- Concrete record used by witnesses. -/
def w2 : Wisdom :=
  ⟨2, "Compassion is the radicalism of our time", "Dalai Lama", "Interviews", "compassion", "en"⟩

/-- Concrete record used by witnesses. -/
def w3 : Wisdom :=
  ⟨3, "A disciplined mind brings happiness", "Buddha", "Dhammapada", "wisdom", "en"⟩

/-- Concrete record whose category contains "zen" while text, author and
source do not; used by the search witness. -/
def wzen : Wisdom :=
  ⟨4, "Calm abiding", "Mipham", "Treatise", "zen", "en"⟩

/-- `strIn` agrees with list infixhood of the underlying character lists. -/
lemma strIn_iff (n h : String) : strIn n h = true ↔ n.data <:+: h.data := by
  simp only [strIn, List.any_eq_true, List.mem_tails, List.isPrefixOf_iff_prefix,
    List.infix_iff_prefix_suffix]
  tauto

/-- C5: the `total` field of `get_wisdom` and `search_wisdom` equals the size
of the filtered sequence and does not depend on `page` or `per_page`. -/
theorem totals_reflect_filtered_size
    (store : List Wisdom) (category author source : Option String) (q : String)
    (page₁ per_page₁ page₂ per_page₂ : Nat) :
    (get_wisdom store page₁ per_page₁ category author source).total
        = (applySource source (applyAuthor author (applyCategory category store))).length
    ∧ (get_wisdom store page₁ per_page₁ category author source).total
        = (get_wisdom store page₂ per_page₂ category author source).total
    ∧ (search_wisdom store q page₁ per_page₁).total
        = (store.filter (matchesSearch q)).length
    ∧ (search_wisdom store q page₁ per_page₁).total
        = (search_wisdom store q page₂ per_page₂).total :=
  ⟨rfl, rfl, rfl, rfl⟩

/-- C10: supplying `category`, `author` or `source` as the empty string gives
the same response as omitting the parameter: an empty-string filter is
falsy in Python and is treated as no filter. -/
theorem empty_filter_equals_absent
    (store : List Wisdom) (page per_page : Nat) (category author source : Option String) :
    get_wisdom store page per_page (some "") author source
        = get_wisdom store page per_page none author source
    ∧ get_wisdom store page per_page category (some "") source
        = get_wisdom store page per_page category none source
    ∧ get_wisdom store page per_page category author (some "")
        = get_wisdom store page per_page category author none :=
  ⟨rfl, rfl, rfl⟩

/-- C3 counterexample: a present but unparsable source file does not
initialize an empty store; the decode error escapes the load block (only
`FileNotFoundError` is caught), so startup fails. -/
theorem load_unparsable_counterexample :
    loadWisdomData SourceFile.unparsable = .error LoadError.jsonDecodeError
    ∧ loadWisdomData SourceFile.unparsable ≠ .ok [] :=
  ⟨rfl, fun h => Except.noConfusion h⟩

/-- C3 (amended): a missing source file initializes the store empty, with
empty derived category/author/source sets, without failing startup; an
unparsable file instead propagates the decode error, which is fatal at
startup. -/
theorem load_missing_empty_unparsable_fatal :
    loadWisdomData SourceFile.missing = .ok []
    ∧ categories [] = []
    ∧ authors [] = []
    ∧ sources [] = []
    ∧ loadWisdomData SourceFile.unparsable = .error LoadError.jsonDecodeError :=
  ⟨rfl, rfl, rfl, rfl, rfl⟩

/-- C9 counterexample: the 429 body's `retry_after` field is the fixed
message "Please wait before making more requests"; it is not "60" and does
not even contain the digits "60", so it does not convey the 60-second delay. -/
theorem retry_after_counterexample :
    (rate_limit_handler "30 per 1 minute").body.retry_after ≠ "60"
    ∧ strIn "60" (rate_limit_handler "30 per 1 minute").body.retry_after = false :=
  ⟨by decide, by decide⟩

/-- C9 (amended): every limiter rejection yields status 429, a body with
exactly the keys error, message and retry_after, where `retry_after` is the
fixed human-readable message "Please wait before making more requests"; the
fixed 60-second retry delay is conveyed by the `Retry-After: 60` header. -/
theorem rate_limit_response_shape (detail : String) :
    (rate_limit_handler detail).status_code = 429
    ∧ (rate_limit_handler detail).body =
        { error := "Rate limit exceeded"
          message := "Too many requests. Limit: " ++ detail
          retry_after := "Please wait before making more requests" }
    ∧ (rate_limit_handler detail).retryAfterHeader = "60" :=
  ⟨rfl, rfl, rfl⟩

/-- C2: `search_wisdom` filters by exactly the text/author/source substring
predicate; the empty query matches every record; and a record whose category
contains the query while text, author and source do not is not matched. -/
theorem search_matches_text_author_source
    (store : List Wisdom) (q : String) (page per_page : Nat) :
    (search_wisdom store q page per_page).total
        = (store.filter (matchesSearch q)).length
    ∧ (∀ w : Wisdom, matchesSearch q w = true ↔
        ((lower q).data <:+: (lower w.text).data
          ∨ (lower q).data <:+: (lower w.author).data
          ∨ (lower q).data <:+: (lower w.source).data))
    ∧ (∀ w : Wisdom, matchesSearch "" w = true)
    ∧ (∀ w : Wisdom, (lower q).data <:+: (lower w.category).data →
        ¬ (lower q).data <:+: (lower w.text).data →
        ¬ (lower q).data <:+: (lower w.author).data →
        ¬ (lower q).data <:+: (lower w.source).data →
        matchesSearch q w = false) := by
  refine ⟨rfl, ?_, ?_, ?_⟩
  · intro w
    simp only [matchesSearch, Bool.or_eq_true, strIn_iff, or_assoc]
  · intro w
    have hnil : (lower "").data = [] := rfl
    simp only [matchesSearch, Bool.or_eq_true, strIn_iff, hnil, or_assoc]
    exact Or.inl List.nil_infix
  · intro w _ ht ha hs
    simp only [matchesSearch, Bool.or_eq_false_iff]
    refine ⟨⟨?_, ?_⟩, ?_⟩ <;>
      [skip; skip; skip] <;>
      simp only [Bool.eq_false_iff, Ne, strIn_iff] <;> assumption

/-- C2 witness: concrete instances of the three parts of the search claim. -/
theorem search_matches_text_author_source_witness :
    matchesSearch "" w1 = true
    ∧ matchesSearch "zen" wzen = false
    ∧ (search_wisdom [w1, w2, w3] "dalai" 1 10).total
        = ([w1, w2, w3].filter (matchesSearch "dalai")).length := by
  refine ⟨?_, ?_, ?_⟩
  · exact (search_matches_text_author_source [w1] "" 1 10).2.2.1 w1
  · exact (search_matches_text_author_source [wzen] "zen" 1 10).2.2.2 wzen
      (by decide) (by decide) (by decide) (by decide)
  · exact (search_matches_text_author_source [w1, w2, w3] "dalai" 1 10).1

/-- On a non-empty store, `get_random_wisdom` returns the entry at the drawn
index reduced modulo the store size. -/
lemma get_random_wisdom_mod :
    ∀ (store : List Wisdom) (pick : Nat) (h : 0 < store.length),
      get_random_wisdom store pick = .ok (store.get ⟨pick % store.length, Nat.mod_lt _ h⟩)
  | _ :: _, _, _ => rfl

/-- C7: `get_random_wisdom` fails with the 404 "No wisdom available" error on
the empty store; on a non-empty store every entropy value yields a member of
the store; and over the uniformly-drawn index range `[0, count)` the
selection enumerates the store exactly, so the choice is uniform over it. -/
theorem random_empty_404_nonempty_member
    (store : List Wisdom) (pick : Nat) (hne : store ≠ []) :
    (∀ p : Nat, get_random_wisdom [] p = .error ⟨404, "No wisdom available"⟩)
    ∧ (∃ w ∈ store, get_random_wisdom store pick = .ok w)
    ∧ ((List.range store.length).map (fun i => get_random_wisdom store i)
        = store.map Except.ok) := by
  have hlen : 0 < store.length := List.length_pos.mpr hne
  refine ⟨fun _ => rfl, ?_, ?_⟩
  · exact ⟨store.get ⟨pick % store.length, Nat.mod_lt _ hlen⟩, List.get_mem _ _ _,
      get_random_wisdom_mod store pick hlen⟩
  · refine List.ext_getElem (by simp) ?_
    intro i h₁ h₂
    have hi : i < store.length := by simpa using h₂
    rw [List.getElem_map, List.getElem_map, List.getElem_range,
      get_random_wisdom_mod store i hlen]
    exact congrArg Except.ok
      ((congrArg store.get (Fin.ext (Nat.mod_eq_of_lt hi))).trans
        (List.get_eq_getElem store ⟨i, hi⟩))

/-- C7 witness: the empty-store error, membership of a concrete draw, and the
uniform enumeration over a concrete three-record store. -/
theorem random_empty_404_nonempty_member_witness :
    get_random_wisdom [] 0 = .error ⟨404, "No wisdom available"⟩
    ∧ (∃ w ∈ [w1, w2, w3], get_random_wisdom [w1, w2, w3] 7 = .ok w)
    ∧ ((List.range 3).map (fun i => get_random_wisdom [w1, w2, w3] i)
        = [w1, w2, w3].map Except.ok) := by
  have h := random_empty_404_nonempty_member [w1, w2, w3] 7 (List.cons_ne_nil _ _)
  exact ⟨h.1 0, h.2.1, h.2.2⟩

/-- C8: `get_wisdom_by_id` fails with the 404 "Wisdom not found" error exactly
when no record in the store carries the requested id; and when the id is
carried by a unique record of the store, that exact record is returned. -/
theorem get_by_id_not_found_iff
    (store : List Wisdom) (wisdom_id : Int) :
    (get_wisdom_by_id store wisdom_id = .error ⟨404, "Wisdom not found"⟩ ↔
        ∀ x ∈ store, x.id ≠ wisdom_id)
    ∧ (∀ w : Wisdom, w ∈ store → w.id = wisdom_id →
        (∀ x ∈ store, x.id = wisdom_id → x = w) →
        get_wisdom_by_id store wisdom_id = .ok w) := by
  constructor
  · cases hfind : store.find? (fun w => w.id == wisdom_id) with
    | none =>
      simp only [get_wisdom_by_id, hfind]
      constructor
      · intro _ x hx
        have := List.find?_eq_none.mp hfind x hx
        simpa using this
      · intro _; trivial
    | some a =>
      simp only [get_wisdom_by_id, hfind]
      constructor
      · intro h; exact absurd h (fun h => Except.noConfusion h)
      · intro h
        have ha : a.id = wisdom_id := by simpa using List.find?_some hfind
        exact absurd ha (h a (List.mem_of_find?_eq_some hfind))
  · intro w hmem hid huniq
    have hsome : (store.find? (fun x => x.id == wisdom_id)).isSome := by
      rw [List.find?_isSome]
      exact ⟨w, hmem, by simp [hid]⟩
    obtain ⟨a, hfind⟩ := Option.isSome_iff_exists.mp hsome
    have ha : a.id = wisdom_id := by simpa using List.find?_some hfind
    have haw : a = w := huniq a (List.mem_of_find?_eq_some hfind) ha
    simp only [get_wisdom_by_id, hfind, haw]

/-- C8 witness: id 99 is absent from the concrete store and yields the 404
error; id 2 is present exactly once and yields the stored record. -/
theorem get_by_id_not_found_iff_witness :
    get_wisdom_by_id [w1, w2, w3] 99 = .error ⟨404, "Wisdom not found"⟩
    ∧ get_wisdom_by_id [w1, w2, w3] 2 = .ok w2 := by
  refine ⟨?_, ?_⟩
  · exact (get_by_id_not_found_iff [w1, w2, w3] 99).1.mpr (by decide)
  · exact (get_by_id_not_found_iff [w1, w2, w3] 2).2 w2 (by decide) (by decide) (by decide)

/-- A non-empty category parameter filters exactly by case-insensitive
equality on the category field. -/
lemma applyCategory_eq_filter (category : Option String) (h : category ≠ some "")
    (l : List Wisdom) :
    applyCategory category l = l.filter (fun w =>
      match category with
      | none => true
      | some c => lower w.category == lower c) := by
  cases category with
  | none => exact (List.filter_true l).symm
  | some c =>
    have hne : ¬ c.isEmpty = true := by
      intro hc
      exact h (by rw [(String.isEmpty_iff c).mp hc])
    simp only [applyCategory, if_neg hne]

/-- A non-empty author parameter filters exactly by case-insensitive
substring on the author field. -/
lemma applyAuthor_eq_filter (author : Option String) (h : author ≠ some "")
    (l : List Wisdom) :
    applyAuthor author l = l.filter (fun w =>
      match author with
      | none => true
      | some a => strIn (lower a) (lower w.author)) := by
  cases author with
  | none => exact (List.filter_true l).symm
  | some a =>
    have hne : ¬ a.isEmpty = true := by
      intro ha
      exact h (by rw [(String.isEmpty_iff a).mp ha])
    simp only [applyAuthor, if_neg hne]

/-- A non-empty source parameter filters exactly by case-insensitive
substring on the source field. -/
lemma applySource_eq_filter (source : Option String) (h : source ≠ some "")
    (l : List Wisdom) :
    applySource source l = l.filter (fun w =>
      match source with
      | none => true
      | some s => strIn (lower s) (lower w.source)) := by
  cases source with
  | none => exact (List.filter_true l).symm
  | some s =>
    have hne : ¬ s.isEmpty = true := by
      intro hs
      exact h (by rw [(String.isEmpty_iff s).mp hs])
    simp only [applySource, if_neg hne]

/-- The three sequential filters of `get_wisdom` equal one pass of the spec's
AND-combined predicate, in insertion order. -/
lemma filtered_eq_spec (category author source : Option String)
    (hc : category ≠ some "") (ha : author ≠ some "") (hs : source ≠ some "")
    (store : List Wisdom) :
    applySource source (applyAuthor author (applyCategory category store))
      = store.filter (listMatchesSpec category author source) := by
  rw [applyCategory_eq_filter category hc, applyAuthor_eq_filter author ha,
    applySource_eq_filter source hs, List.filter_filter, List.filter_filter]
  apply List.filter_congr
  intro w _
  simp only [listMatchesSpec]
  cases hb1 : (match category with
    | none => true
    | some c => lower w.category == lower c) <;>
  cases hb2 : (match author with
    | none => true
    | some a => strIn (lower a) (lower w.author)) <;>
  cases hb3 : (match source with
    | none => true
    | some s => strIn (lower s) (lower w.source)) <;>
  simp [hb1, hb2, hb3]

/-- C1: for valid paging parameters and supplied (non-empty) filters,
`get_wisdom` applies the recognized filters AND-combined in insertion order
and returns exactly the slice `[(page-1)*per_page, (page-1)*per_page +
per_page)` of the filtered sequence, an out-of-range slice yielding an empty
page rather than an error. -/
theorem list_applies_filters_and_slice
    (store : List Wisdom) (page per_page : Nat) (category author source : Option String)
    (hpage : 1 ≤ page) (hpp₁ : 1 ≤ per_page) (hpp₂ : per_page ≤ 100)
    (hc : category ≠ some "") (ha : author ≠ some "") (hs : source ≠ some "") :
    (get_wisdom store page per_page category author source).wisdom
      = ((store.filter (listMatchesSpec category author source)).drop
          ((page - 1) * per_page)).take per_page
    ∧ ((store.filter (listMatchesSpec category author source)).length
          ≤ (page - 1) * per_page →
        (get_wisdom store page per_page category author source).wisdom = []) := by
  have hf := filtered_eq_spec category author source hc ha hs store
  constructor
  · simp only [get_wisdom]
    rw [hf]
  · intro hlen
    simp only [get_wisdom]
    rw [hf, List.drop_eq_nil_iff.mpr hlen, List.take_nil]

/-- C1 witness: the concrete category filter and slice on a three-record
store, including the evaluated page contents. -/
theorem list_applies_filters_and_slice_witness :
    (get_wisdom [w1, w2, w3] 1 10 (some "wisdom") none none).wisdom
      = (([w1, w2, w3].filter (listMatchesSpec (some "wisdom") none none)).drop
          ((1 - 1) * 10)).take 10
    ∧ (([w1, w2, w3].filter (listMatchesSpec (some "wisdom") none none)).length
          ≤ (1 - 1) * 10 →
        (get_wisdom [w1, w2, w3] 1 10 (some "wisdom") none none).wisdom = [])
    ∧ (get_wisdom [w1, w2, w3] 1 10 (some "wisdom") none none).wisdom = [w1, w3] := by
  have h := list_applies_filters_and_slice [w1, w2, w3] 1 10 (some "wisdom") none none
    (by decide) (by decide) (by decide) (by decide) (by decide) (by decide)
  exact ⟨h.1, h.2, by decide⟩

/-- C4: for valid paging parameters, the page returned by `get_wisdom` has
length exactly `min(per_page, max(0, filtered_total - (page-1)*per_page))`,
where `filtered_total` is the response's `total`; in particular arbitrarily
large pages give an empty page, never an error. -/
theorem list_page_length
    (store : List Wisdom) (page per_page : Nat) (category author source : Option String)
    (hpage : 1 ≤ page) (hpp₁ : 1 ≤ per_page) (hpp₂ : per_page ≤ 100) :
    ((get_wisdom store page per_page category author source).wisdom.length : Int)
      = min (per_page : Int)
          (max 0 (((get_wisdom store page per_page category author source).total : Int)
            - ((page : Int) - 1) * (per_page : Int))) := by
  have hcast : (((page - 1) * per_page : Nat) : Int)
      = ((page : Int) - 1) * (per_page : Int) := by
    rw [Nat.cast_mul, Nat.cast_sub hpage, Nat.cast_one]
  rw [← hcast]
  simp only [get_wisdom, List.length_take, List.length_drop]
  generalize (applySource source (applyAuthor author (applyCategory category store))).length = L
  generalize (page - 1) * per_page = s
  omega

/-- C4 witness: on the three-record unfiltered store, page 2 with two records
per page holds exactly one record. -/
theorem list_page_length_witness :
    ((get_wisdom [w1, w2, w3] 2 2 none none none).wisdom.length : Int)
      = min ((2 : Nat) : Int)
          (max 0 (((get_wisdom [w1, w2, w3] 2 2 none none none).total : Int)
            - (((2 : Nat) : Int) - 1) * ((2 : Nat) : Int)))
    ∧ (get_wisdom [w1, w2, w3] 2 2 none none none).wisdom = [w3] := by
  exact ⟨list_page_length [w1, w2, w3] 2 2 none none none
    (by decide) (by decide) (by decide), by decide⟩

/-- A limiter run splits over concatenation of request streams. -/
lemma limiterRun_append (N : Nat) (xs ys : List Nat) :
    ∀ st : Option LimiterState,
      limiterRun N st (xs ++ ys)
        = ((limiterRun N st xs).1 ++ (limiterRun N (limiterRun N st xs).2 ys).1,
            (limiterRun N (limiterRun N st xs).2 ys).2) := by
  induction xs with
  | nil => intro st; simp [limiterRun]
  | cons x xs ih =>
    intro st
    simp only [List.cons_append, limiterRun, List.append_eq, ih, List.nil_append]

/-- While every request falls inside the window opened at `t0`, the limiter
never resets: starting from count `k`, the i-th further request is admitted
exactly when `k + 1 + i ≤ N`, and the count just accumulates. -/
lemma limiterRun_in_window (N t0 : Nat) :
    ∀ (ts : List Nat) (k : Nat), (∀ t ∈ ts, t < t0 + 60) →
      limiterRun N (some ⟨t0, k⟩) ts
        = ((List.range ts.length).map (fun i => decide (k + 1 + i ≤ N)),
            some ⟨t0, k + ts.length⟩) := by
  intro ts
  induction ts with
  | nil => intro k _; simp [limiterRun]
  | cons t ts ih =>
    intro k h
    have hlt : ¬ (t0 + 60 ≤ t) := by
      have := h t (List.mem_cons_self t ts)
      omega
    have hrest : ∀ x ∈ ts, x < t0 + 60 :=
      fun x hx => h x (List.mem_cons_of_mem t hx)
    simp only [limiterRun, limitStep, if_neg hlt]
    rw [ih (k + 1) hrest]
    rw [Prod.mk.injEq]
    constructor
    · rw [List.length_cons, List.range_succ_eq_map, List.map_cons, List.map_map]
      congr 1
      apply List.map_congr_left
      intro i _
      have e : k + 1 + 1 + i = k + 1 + (i + 1) := by omega
      simp only [Function.comp_apply, Nat.succ_eq_add_one, e]
    · have e : k + 1 + ts.length = k + (ts.length + 1) := by omega
      rw [List.length_cons, e]

/-- Every endpoint class admits at least one request per window. -/
lemma one_le_endpointLimit (c : EndpointClass) : 1 ≤ endpointLimit c := by
  cases c <;> decide

/-- C6: for every endpoint class with its configured per-minute limit `N`
(random=30, listing=20, search=15, metadata=10, health=5, landing=30) and a
single client key, the i-th request inside the 60-second window opened by the
first request is admitted exactly when `i + 1 ≤ N` — so the first `N` are
admitted and the (N+1)-th is rejected — and the first request arriving at or
after 60 seconds past the window start is admitted even if the window was
exhausted. -/
theorem rate_limiter_window_behavior
    (c : EndpointClass) (t0 : Nat) (rest : List Nat) (tlast : Nat)
    (hin : ∀ t ∈ rest, t < t0 + 60) (hlast : t0 + 60 ≤ tlast) :
    (limiterRun (endpointLimit c) none (t0 :: (rest ++ [tlast]))).1
      = ((List.range (rest.length + 1)).map (fun i => decide (i + 1 ≤ endpointLimit c)))
          ++ [true] := by
  have hN : decide (1 ≤ endpointLimit c) = true :=
    decide_eq_true (one_le_endpointLimit c)
  have hfin : limiterRun (endpointLimit c) (some ⟨t0, 1 + rest.length⟩) [tlast]
      = ([true], some ⟨tlast, 1⟩) := by
    simp only [limiterRun, limitStep, if_pos hlast, hN]
  calc (limiterRun (endpointLimit c) none (t0 :: (rest ++ [tlast]))).1
      = decide (1 ≤ endpointLimit c)
          :: (limiterRun (endpointLimit c) (some ⟨t0, 1⟩) (rest ++ [tlast])).1 := by
        simp only [limiterRun, limitStep]
    _ = decide (1 ≤ endpointLimit c)
          :: (((List.range rest.length).map (fun i => decide (1 + 1 + i ≤ endpointLimit c)))
              ++ [true]) := by
        rw [limiterRun_append (endpointLimit c) rest [tlast] (some ⟨t0, 1⟩)]
        rw [limiterRun_in_window (endpointLimit c) t0 rest 1 hin]
        rw [hfin]
    _ = ((List.range (rest.length + 1)).map (fun i => decide (i + 1 ≤ endpointLimit c)))
          ++ [true] := by
        have hmap : (List.range rest.length).map
              (fun i => decide (1 + 1 + i ≤ endpointLimit c))
            = (List.range rest.length).map
                ((fun i => decide (i + 1 ≤ endpointLimit c)) ∘ Nat.succ) := by
          apply List.map_congr_left
          intro i _
          simp only [Function.comp_apply]
          have e : 1 + 1 + i = Nat.succ i + 1 := by omega
          rw [e]
        rw [List.range_succ_eq_map, List.map_cons, List.map_map, List.cons_append, hmap]

/-- C6 witness: for the health class (limit 5), six requests inside one
window are decided admit×5 then reject, and a request at 60 seconds is
admitted again. -/
theorem rate_limiter_window_behavior_witness :
    (limiterRun (endpointLimit EndpointClass.health) none [0, 1, 2, 3, 4, 5, 60]).1
      = [true, true, true, true, true, false, true] := by
  have h := rate_limiter_window_behavior EndpointClass.health 0 [1, 2, 3, 4, 5] 60
    (by decide) (by decide)
  exact h.trans (by decide)
